import Mathlib

/-!
Shallow embedding of the meoho-money-killer trading bot (Python sources:
`signal_guard.py`, `position.py`, `upbit_client.py`, `price_watcher.py`,
`webhook.py`, `telemetry.py`, `main.py`).

Modelling conventions:
* Python floats and timestamps are modelled by `ℚ`.
* Python `None` / missing dict keys are modelled by `Option`.
* The exchange is an oracle: each HTTP response the code would receive is an
  explicit input (a field of an environment structure), and the exchange calls
  a workflow performs are collected in a `List ExchangeCall`.
* Exceptions become explicit outcome constructors; state passing is explicit.
-/

namespace Meoho

/-! ## Data model: `position.py` -/

/-- Position status enumeration (`PositionStatus` in `position.py`). -/
inductive PositionStatus where
  | OPEN
  | CLOSED
deriving DecidableEq

/-- The single tracked holding (`Position` dataclass in `position.py`). -/
structure Position where
  market : String
  side : String
  entry_price : ℚ
  amount : ℚ
  tp : ℚ
  sl : ℚ
  status : PositionStatus
  opened_at : ℚ
  order_uuid : String
deriving DecidableEq

/-- PositionManager stored state is an optional position (`self._position`). -/
abbrev PMState := Option Position

/-- Result of `PositionManager.open_position`: `RuntimeError` raised or not. -/
inductive OpenResult where
  | alreadyOpen
  | installed
deriving DecidableEq

/-- Embedding of `PositionManager.open_position`: raise `RuntimeError` when a
position is stored and its status is OPEN, otherwise install the argument.
Returns the raised-or-not flag together with the state after the call. -/
def open_position (st : PMState) (p : Position) : OpenResult × PMState :=
  match st with
  | some q => if q.status = PositionStatus.OPEN then (.alreadyOpen, some q) else (.installed, some p)
  | none => (.installed, some p)

/-- Embedding of `PositionManager.has_open`. -/
def has_open (st : PMState) : Bool :=
  match st with
  | some q => q.status = PositionStatus.OPEN
  | none => false

/-- Embedding of `PositionManager.close_position`: no-op when no position is
stored, otherwise flip the stored status to CLOSED. -/
def close_position (st : PMState) : PMState :=
  match st with
  | some q => some { q with status := PositionStatus.CLOSED }
  | none => none

/-- Embedding of `PositionManager.replace_with_recovered`: unconditionally
install a fresh OPEN position with side LONG and order uuid RECOVERED. -/
def replace_with_recovered (market : String) (entry_price amount tp sl now : ℚ) : PMState :=
  some {
    market := market
    side := "LONG"
    entry_price := entry_price
    amount := amount
    tp := tp
    sl := sl
    status := PositionStatus.OPEN
    opened_at := now
    order_uuid := "RECOVERED" }

/-! ## SignalGuard: `signal_guard.py`

The Python dict `self._signals : dict[str, float]` is modelled as an
association list in insertion order (Python dicts preserve insertion order and
append new keys at the end). -/

/-- SignalGuard state: the TTL fixed at construction and the signal records. -/
structure SignalGuard where
  ttl_sec : ℚ
  signals : List (String × ℚ)
deriving DecidableEq

/-- Lookup of a key in the association list (Python `signal_id in self._signals`
and `self._signals[signal_id]`; dict keys are unique). -/
def lookupSig : List (String × ℚ) → String → Option ℚ
  | [], _ => none
  | (k, v) :: rest, key => if k = key then some v else lookupSig rest key

/-- Embedding of `SignalGuard._prune`: drop every record with
`now - ts > ttl_sec`, keeping the rest in order. -/
def pruneSig (now ttl : ℚ) (l : List (String × ℚ)) : List (String × ℚ) :=
  l.filter (fun kv => decide (now - kv.2 ≤ ttl))

/-- Embedding of `SignalGuard.register`: prune expired records, then refuse a
still-present id, else record the id with the current time and accept. -/
def register (g : SignalGuard) (id : String) (now : ℚ) : Bool × SignalGuard :=
  let pruned := pruneSig now g.ttl_sec g.signals
  match lookupSig pruned id with
  | some _ => (false, { g with signals := pruned })
  | none => (true, { g with signals := pruned ++ [(id, now)] })

/-- Keys of a signal-record list. -/
abbrev sigKeys (l : List (String × ℚ)) : List String := l.map Prod.fst

/-! ## Exchange order model: `upbit_client.py` -/

/-- One element of an order's `trades` list (fields `price` and `volume`). -/
structure Trade where
  price : ℚ
  volume : ℚ
deriving DecidableEq

/-- Exchange-side order record as the code reads it. A `none` field is a
missing key or a JSON `null`; `order.get("trades") or []` makes a missing
trades list and an empty one indistinguishable, so `trades` is a plain list. -/
structure Order where
  uuid : Option String := none
  state : Option String := none
  statusStr : Option String := none
  trades : List Trade := []
  avg_price : Option ℚ := none
  ord_type : Option String := none
  price : Option ℚ := none
  executed_volume : Option ℚ := none
  remaining_volume : Option ℚ := none
deriving DecidableEq

/-- Python `a or b` on two optional strings: an empty string is falsy. -/
def pyOrStr (a b : Option String) : Option String :=
  match a with
  | some s => if s = "" then b else some s
  | none => b

/-- Embedding of `webhook._order_state`:
`(order.get("state") or order.get("status") or "").lower()`. -/
def orderState (o : Order) : String :=
  ((pyOrStr o.state o.statusStr).getD "").toLower

/-- Embedding of `UpbitClient.extract_filled_volume`: the explicit
`executed_volume` field when present and non-null, else the sum of trade
volumes. -/
def extract_filled_volume (o : Order) : ℚ :=
  match o.executed_volume with
  | some v => v
  | none => (o.trades.map Trade.volume).sum

/-- Embedding of `UpbitClient.calculate_avg_price`, following the source's
precedence: volume-weighted average over a non-empty trades list (0 when the
total volume is 0), then the `avg_price` field, then notional price divided by
executed volume for `ord_type = "price"` orders with positive price and
volume, then the `price` field, else 0. -/
def calculate_avg_price (o : Order) : ℚ :=
  if o.trades ≠ [] then
    let total := (o.trades.map (fun t => t.price * t.volume)).sum
    let volume := (o.trades.map Trade.volume).sum
    if volume ≠ 0 then total / volume else 0
  else
    match o.avg_price with
    | some a => a
    | none =>
      if o.ord_type = some "price" ∧ extract_filled_volume o > 0 ∧ (o.price.getD 0) > 0 then
        (o.price.getD 0) / extract_filled_volume o
      else
        match o.price with
        | some p => p
        | none => 0

/-! ## Telemetry call interface: `telemetry.py`

`AppTelemetry.add_event(self, message: str, level: str = "info")` accepts
exactly the keyword arguments `message` and `level`. A Python call supplying
any other keyword argument raises `TypeError`. -/

/-- Keyword-capable parameter names of `AppTelemetry.add_event` other than
`self`, as declared in `telemetry.py`. -/
def addEventParams : List String := ["message", "level"]

/-- Whether a Python call whose keyword-argument names are `kwargs` binds
without a `TypeError` against a function with parameter names `params`. -/
def kwargsAccepted (params kwargs : List String) : Bool :=
  kwargs.all (fun k => params.contains k)

/-! ## Exchange calls and errors -/

/-- One outbound exchange call (`wait_order_filled`'s internal polling is one
logical call). -/
inductive ExchangeCall where
  | placeBuy (market : String) (amount_krw : ℚ)
  | placeSell (market : String) (volume : ℚ)
  | waitOrder (uuid : String)
  | getOrder (uuid : String)
  | cancelOrder (uuid : String)
  | getTicker (market : String)
  | getAccounts
deriving DecidableEq

/-- Data the webhook reads off an `UpbitAPIError`: its HTTP status code and
`user_message()`. -/
structure UpbitErr where
  status_code : ℕ
  detail : String
deriving DecidableEq

/-! ## Entry workflow: `webhook.py` -/

/-- Exchange responses consumed by one run of the entry workflow, in the order
the code can request them. `waitResult` is `Except.error ()` when
`wait_order_filled` raises (timeout, partial fill, or any other exception);
the `refetch*` fields are the `get_order` responses of the fallback sequence. -/
structure WebhookEnv where
  buyResult : Except UpbitErr Order
  waitResult : Except Unit Order
  refetch1 : Except UpbitErr Order
  refetch2 : Except UpbitErr Order
  refetch3 : Except UpbitErr Order
  refetch4 : Except UpbitErr Order

/-- Per-app mutable state touched by the workflows. -/
structure AppState where
  guard : SignalGuard
  position : PMState
  watcherRunning : Bool
deriving DecidableEq

/-- Outcome of one webhook request: an `HTTPException` with status and detail,
a success response carrying the opened position snapshot, or an uncaught
exception escaping the handler (a 500 from the framework, but no success
body and no code after the raise runs). -/
inductive WebhookOutcome where
  | httpError (status : ℕ) (detail : String)
  | ok (pos : Position)
  | uncaught (msg : String)
deriving DecidableEq

/-- Error result of `webhook._resolve_filled_order`. -/
inductive ResolveErr where
  | notFilled
  | api (e : UpbitErr)
deriving DecidableEq

/-- Settings fields the entry workflow reads. -/
structure EntrySettings where
  min_order_krw : ℚ

/-- Parsed numeric/string payload of an entry signal, after the JSON layer
(fields `market`, `signal_id`, `price`, `tp`, `sl`; `action` = BUY). -/
structure WebhookInput where
  market : String
  signal_id : String
  price_krw : ℚ
  tp : ℚ
  sl : ℚ

/-- Embedding of `webhook._resolve_filled_order` for order `uuid`: try
`wait_order_filled`; on failure re-fetch, accept a `done` order, otherwise
cancel and re-fetch (once more when nothing was filled), and raise
`OrderNotFilledError` when still neither done nor partially filled.
Returns the resolved order or the error, with the exchange calls made. -/
def resolveFilledOrder (env : WebhookEnv) (uuid : String) :
    Except ResolveErr Order × List ExchangeCall :=
  match env.waitResult with
  | .ok order => (.ok order, [.waitOrder uuid])
  | .error _ =>
    match env.refetch1 with
    | .error e => (.error (.api e), [.waitOrder uuid, .getOrder uuid])
    | .ok order =>
      if orderState order = "done" then
        (.ok order, [.waitOrder uuid, .getOrder uuid])
      else if extract_filled_volume order > 0 then
        match env.refetch2 with
        | .error e =>
          (.error (.api e), [.waitOrder uuid, .getOrder uuid, .cancelOrder uuid, .getOrder uuid])
        | .ok o2 =>
          (.ok o2, [.waitOrder uuid, .getOrder uuid, .cancelOrder uuid, .getOrder uuid])
      else
        match env.refetch3 with
        | .error e =>
          (.error (.api e), [.waitOrder uuid, .getOrder uuid, .cancelOrder uuid, .getOrder uuid])
        | .ok o3 =>
          if orderState o3 = "done" ∨ extract_filled_volume o3 > 0 then
            (.ok o3, [.waitOrder uuid, .getOrder uuid, .cancelOrder uuid, .getOrder uuid])
          else
            (.error .notFilled,
              [.waitOrder uuid, .getOrder uuid, .cancelOrder uuid, .getOrder uuid])

/-- HTTP status the `UpbitAPIError` handler reports: 5xx is mapped to 502. -/
def apiErrStatus (e : UpbitErr) : ℕ :=
  if e.status_code ≥ 500 then 502 else e.status_code

/-- Tail of the entry workflow from a resolved fill onward: derive entry price
and filled volume, re-fetch once when either is non-positive, reject invalid
fill data, install the position, then report the open through
`telemetry.add_event(msg, kind="open", roi=0.0)` — which only binds when
`add_event` accepts those keywords — and finally ensure the watcher runs and
return the snapshot. `calls` are the exchange calls made so far. -/
def webhookAfterResolve (inp : WebhookInput) (env : WebhookEnv) (now : ℚ)
    (st : AppState) (uuid : String) (filled : Order) (calls : List ExchangeCall) :
    WebhookOutcome × AppState × List ExchangeCall :=
  let ep0 := calculate_avg_price filled
  let fv0 := extract_filled_volume filled
  let reload : Except UpbitErr (ℚ × ℚ × List ExchangeCall) :=
    if ep0 ≤ 0 ∨ fv0 ≤ 0 then
      match env.refetch4 with
      | .error e => .error e
      | .ok o4 =>
        .ok (calculate_avg_price o4, extract_filled_volume o4, calls ++ [.getOrder uuid])
    else
      .ok (ep0, fv0, calls)
  match reload with
  | .error e =>
    (.httpError (apiErrStatus e) e.detail, st, calls ++ [.getOrder uuid, .cancelOrder uuid])
  | .ok (entry_price, filled_volume, calls1) =>
    if entry_price ≤ 0 ∨ filled_volume ≤ 0 then
      (.httpError 500 "Order failed", st, calls1 ++ [.cancelOrder uuid])
    else
      let pos : Position := {
        market := inp.market
        side := "LONG"
        entry_price := entry_price
        amount := filled_volume
        tp := inp.tp
        sl := inp.sl
        status := PositionStatus.OPEN
        opened_at := now
        order_uuid := uuid }
      match open_position st.position pos with
      | (.alreadyOpen, _) => (.uncaught "Position already open.", st, calls1)
      | (.installed, pm) =>
        let st2 := { st with position := pm }
        if kwargsAccepted addEventParams ["kind", "roi"] then
          (.ok pos, { st2 with watcherRunning := true }, calls1)
        else
          (.uncaught "TypeError: add_event got an unexpected keyword argument", st2, calls1)

/-- Embedding of `webhook.tradingview_webhook` after JSON parsing, for a BUY
payload whose numeric fields parsed: validate positivity and the minimum
order size, register the signal, check for an open position, place the buy,
resolve the fill and hand over to `webhookAfterResolve`. The result is the
outcome, the app state after the request, and the exchange calls made. -/
def tradingview_webhook (s : EntrySettings) (inp : WebhookInput) (env : WebhookEnv)
    (now : ℚ) (st : AppState) : WebhookOutcome × AppState × List ExchangeCall :=
  if inp.price_krw ≤ 0 ∨ inp.tp ≤ 0 ∨ inp.sl ≤ 0 then
    (.httpError 400 "price, tp, sl must be positive", st, [])
  else if inp.price_krw < s.min_order_krw then
    (.httpError 400 "Price below minimum order size", st, [])
  else
    let r := register st.guard inp.signal_id now
    let st1 := { st with guard := r.2 }
    if r.1 = false then
      (.httpError 409 "Duplicate signal_id", st1, [])
    else if has_open st1.position then
      (.httpError 409 "Position already open", st1, [])
    else
      match env.buyResult with
      | .error e =>
        (.httpError (apiErrStatus e) e.detail, st1, [.placeBuy inp.market inp.price_krw])
      | .ok order =>
        let calls0 := [ExchangeCall.placeBuy inp.market inp.price_krw]
        match order.uuid with
        | none => (.httpError 500 "Order failed", st1, calls0)
        | some uuid =>
          if uuid = "" then (.httpError 500 "Order failed", st1, calls0)
          else
            match resolveFilledOrder env uuid with
            | (.error (.api e), rc) =>
              (.httpError (apiErrStatus e) e.detail, st1, calls0 ++ rc ++ [.cancelOrder uuid])
            | (.error .notFilled, rc) =>
              (.httpError 500 "Order failed", st1, calls0 ++ rc ++ [.cancelOrder uuid])
            | (.ok filled, rc) =>
              webhookAfterResolve inp env now st1 uuid filled (calls0 ++ rc)

/-! ## Price watcher: `price_watcher.py` -/

/-- Embedding of Python `math.isclose(a, b, rel_tol=r, abs_tol=t)`:
`abs(a-b) <= max(r * max(abs(a), abs(b)), t)`. -/
def mathIsClose (a b rel_tol abs_tol : ℚ) : Bool :=
  decide (|a - b| ≤ max (rel_tol * max |a| |b|) abs_tol)

/-- Tolerance `1e-6` used for both `rel_tol` and `abs_tol` in the watcher. -/
def watchTol : ℚ := 1 / 1000000

/-- The watcher's take-profit condition on a fetched price:
`price > tp_price or math.isclose(price, tp_price, rel_tol=1e-6, abs_tol=1e-6)`
with `tp_price = entry_price * (1 + tp)`. -/
def tpHit (entry_price tp price : ℚ) : Bool :=
  decide (price > entry_price * (1 + tp)) ||
    mathIsClose price (entry_price * (1 + tp)) watchTol watchTol

/-- The watcher's stop-loss condition on a fetched price:
`price < sl_price or math.isclose(price, sl_price, rel_tol=1e-6, abs_tol=1e-6)`
with `sl_price = entry_price * (1 - sl)`. -/
def slHit (entry_price sl price : ℚ) : Bool :=
  decide (price < entry_price * (1 - sl)) ||
    mathIsClose price (entry_price * (1 - sl)) watchTol watchTol

/-- The `if / elif` trigger chain of `PriceWatcher._run`: TP checked first,
SL only when TP did not hit, else no trigger. -/
def triggerReason (entry_price tp sl price : ℚ) : Option String :=
  if tpHit entry_price tp price then some "TP"
  else if slHit entry_price sl price then some "SL"
  else none

/-- Whether the watcher iteration triggers a close at this price. -/
def closeTriggered (entry_price tp sl price : ℚ) : Bool :=
  (triggerReason entry_price tp sl price).isSome

/-- Exchange responses one watcher iteration can consume: the ticker fetch
(after its internal retries) and, on a trigger, the market-sell placement and
its fill wait. -/
structure WatcherEnv where
  tick : Except Unit ℚ
  sellResult : Except Unit Order
  sellWait : Except Unit Order

/-- Outcome of one iteration of the watcher loop body. -/
inductive WatcherOutcome where
  | stop
  | fetchFailedRetry
  | closed (reason : String)
  | closeFailed (reason : String)
  | hold
deriving DecidableEq

/-- The close workflow `PriceWatcher._close_position`: place a market sell,
wait for its fill, close the position in the manager, then record the close
through `telemetry.add_event(msg, kind="close", roi=roi)` — a call that only
binds when `add_event` accepts those keywords; the `TypeError` it otherwise
raises is caught by the loop's `except` and reported as a failed close,
although the manager state is already CLOSED. -/
def watcherClose (env : WatcherEnv) (reason market : String) (amount : ℚ)
    (pos : PMState) : WatcherOutcome × PMState × List ExchangeCall :=
  match env.sellResult with
  | .error _ => (.closeFailed reason, pos, [.placeSell market amount])
  | .ok order =>
    match order.uuid with
    | none => (.closeFailed reason, pos, [.placeSell market amount])
    | some uuid =>
      if uuid = "" then (.closeFailed reason, pos, [.placeSell market amount])
      else
        match env.sellWait with
        | .error _ => (.closeFailed reason, pos, [.placeSell market amount, .waitOrder uuid])
        | .ok _ =>
          let pos1 := close_position pos
          if kwargsAccepted addEventParams ["kind", "roi"] then
            (.closed reason, pos1, [.placeSell market amount, .waitOrder uuid])
          else
            (.closeFailed reason, pos1, [.placeSell market amount, .waitOrder uuid])

/-- Embedding of one iteration of the `PriceWatcher._run` loop body: read the
position fresh; stop when there is none, it is not OPEN, or tp/sl is
non-positive; fetch the price (sleep and retry the loop on failure);
evaluate the TP/SL trigger and close when hit. Returns the outcome, the
position state after the iteration, and the exchange calls made. -/
def watcherIter (env : WatcherEnv) (pos : PMState) :
    WatcherOutcome × PMState × List ExchangeCall :=
  match pos with
  | none => (.stop, pos, [])
  | some p =>
    if p.status ≠ PositionStatus.OPEN then (.stop, pos, [])
    else if p.tp ≤ 0 ∨ p.sl ≤ 0 then (.stop, pos, [])
    else
      match env.tick with
      | .error _ => (.fetchFailedRetry, pos, [.getTicker p.market])
      | .ok price =>
        match triggerReason p.entry_price p.tp p.sl price with
        | some reason =>
          let (out, pos1, calls) := watcherClose env reason p.market p.amount pos
          (out, pos1, .getTicker p.market :: calls)
        | none => (.hold, pos, [.getTicker p.market])

/-! ## Startup recovery: `main.py` `_recover_position` -/

/-- One element of the `get_accounts` response, as the recovery routine reads
it (`currency`, `balance`, `avg_buy_price`). -/
structure Account where
  currency : String
  balance : Option ℚ := none
  avg_buy_price : Option ℚ := none
deriving DecidableEq

/-- Settings fields the recovery routine reads. -/
structure RecoverySettings where
  recovery_skip : Bool
  recovery_market : Option String
  recovery_tp : ℚ
  recovery_sl : ℚ

/-- Outcome of the recovery routine. -/
inductive RecoverOutcome where
  | noHoldings
  | skipped
  | fatal (msg : String)
  | uncaught (msg : String)
  | done
deriving DecidableEq

/-- Split a character list at the first dash: the characters before it and
the characters after it, or `none` when there is no dash. -/
def splitFirstDash : List Char → Option (List Char × List Char)
  | [] => none
  | c :: rest =>
    if c = '-' then some ([], rest)
    else
      match splitFirstDash rest with
      | some (a, b) => some (c :: a, b)
      | none => none

/-- Python `market.split("-", 1)` guarded by `"-" not in market`: `none` when
the string has no dash, else the part before the first dash and the rest
(later dashes stay in the second part, as with `maxsplit=1`). -/
def splitMarket (m : String) : Option (String × String) :=
  match splitFirstDash m.toList with
  | some (a, b) => some (String.mk a, String.mk b)
  | none => none

/-- Holdings filter of the recovery routine: non-KRW currency with
`float(acct.get("balance") or 0) > 0`. -/
def holdingsOf (accounts : List Account) : List Account :=
  accounts.filter (fun a => a.currency ≠ "KRW" ∧ a.balance.getD 0 > 0)

/-- Embedding of `main._recover_position` given the `get_accounts` response
and the ticker price the estimate fallback would fetch: filter holdings,
honour the skip flag and the configured recovery market, pick the matching
holding, derive the entry price from `avg_buy_price` falling back to the
ticker when that is missing or non-positive, install the recovered position,
then report it through `telemetry.add_event(msg, level="warn", kind="open")`
— which only binds when `add_event` accepts the `kind` keyword — and start
the watcher when both recovery TP and SL are positive. -/
def recoverPosition (s : RecoverySettings) (accounts : List Account)
    (ticker now : ℚ) (st : AppState) : RecoverOutcome × AppState × List ExchangeCall :=
  let calls0 := [ExchangeCall.getAccounts]
  let holdings := holdingsOf accounts
  if holdings = [] then (.noHoldings, st, calls0)
  else if s.recovery_skip then (.skipped, st, calls0)
  else
    match s.recovery_market with
    | none => (.skipped, st, calls0)
    | some m =>
      if m = "" then (.skipped, st, calls0)
      else
        match splitMarket m with
        | none => (.fatal "RECOVERY_MARKET must be like KRW-BTC.", st, calls0)
        | some (base, cur) =>
          if base ≠ "KRW" then (.fatal "RECOVERY_MARKET base must be KRW.", st, calls0)
          else
            match holdings.filter (fun a => a.currency = cur) with
            | [] => (.fatal "RECOVERY_MARKET not found in holdings.", st, calls0)
            | holding :: _ =>
              let amount := holding.balance.getD 0
              let ep0 := holding.avg_buy_price.getD 0
              let entry := if ep0 ≤ 0 then ticker else ep0
              let calls1 := if ep0 ≤ 0 then calls0 ++ [ExchangeCall.getTicker m] else calls0
              let st1 := { st with position := replace_with_recovered m entry amount s.recovery_tp s.recovery_sl now }
              if kwargsAccepted addEventParams ["level", "kind"] then
                if s.recovery_tp > 0 ∧ s.recovery_sl > 0 then
                  (.done, { st1 with watcherRunning := true }, calls1)
                else
                  (.done, st1, calls1)
              else
                (.uncaught "TypeError: add_event got an unexpected keyword argument", st1, calls1)

/-! ## Concrete fixtures used to instantiate the theorems -/

/-- Order with two trades, the spec's first average-price example. -/
def fixOrder1 : Order := { trades := [⟨100, 1⟩, ⟨200, 1⟩] }

/-- Notional (`ord_type = "price"`) order, the spec's third example. -/
def fixOrder3 : Order := { ord_type := some "price", price := some 10000, executed_volume := some 50 }

/-- Minimal entry settings: minimum order size 5000 KRW. -/
def fixSettings : EntrySettings := ⟨5000⟩

/-- A valid BUY payload. -/
def fixInput : WebhookInput := ⟨"KRW-BTC", "s1", 10000, 1/20, 1/50⟩

/-- A cleanly filled buy order: done, one trade at 100 for volume 1. -/
def fixFilled : Order :=
  { uuid := some "u1", state := some "done", trades := [⟨100, 1⟩], executed_volume := some 1 }

/-- Exchange environment where the buy succeeds and fills immediately; the
fallback fetches are never reached. -/
def fixEnv : WebhookEnv :=
  { buyResult := .ok { uuid := some "u1" }
    waitResult := .ok fixFilled
    refetch1 := .error ⟨500, "unused"⟩
    refetch2 := .error ⟨500, "unused"⟩
    refetch3 := .error ⟨500, "unused"⟩
    refetch4 := .error ⟨500, "unused"⟩ }

/-- Fresh app state: empty guard (TTL 300), no position, watcher idle. -/
def fixState0 : AppState := ⟨⟨300, []⟩, none, false⟩

/-- The position the clean fill should install. -/
def fixPos : Position := ⟨"KRW-BTC", "LONG", 100, 1, 1/20, 1/50, .OPEN, 0, "u1"⟩

/-- An OPEN position held before the request. -/
def fixOpenPos : Position := ⟨"KRW-BTC", "LONG", 95, 1, 1/20, 1/50, .OPEN, 0, "u0"⟩

/-- App state with an OPEN position and an empty guard. -/
def fixStateOpen : AppState := ⟨⟨300, []⟩, some fixOpenPos, false⟩

/-- App state whose guard has already seen signal id s1 at time 0. -/
def fixDupState : AppState := ⟨⟨300, [("s1", 0)]⟩, none, false⟩

/-- Watcher environment in which every exchange call would fail; the
early-exit paths never reach it. -/
def fixWatcherEnv : WatcherEnv := ⟨.error (), .error (), .error ()⟩

/-- Holdings of the spec's recovery scenario: 0.5 BTC with zero avg buy price. -/
def fixAccounts : List Account := [⟨"BTC", some (1/2), some 0⟩]

/-- Recovery settings of the spec's scenario. -/
def fixRecSettings : RecoverySettings := ⟨false, some "KRW-BTC", 1/10, 1/20⟩

/-- The recovered position the scenario should install. -/
def fixRecPos : Position := ⟨"KRW-BTC", "LONG", 50000000, 1/2, 1/10, 1/20, .OPEN, 0, "RECOVERED"⟩

/-! ## Helper lemmas about the SignalGuard association list -/

theorem lookupSig_eq_none_iff (l : List (String × ℚ)) (k : String) :
    lookupSig l k = none ↔ k ∉ sigKeys l := by
  induction l with
  | nil => simp [lookupSig]
  | cons hd tl ih =>
    obtain ⟨k0, v0⟩ := hd
    by_cases hk : k0 = k
    · subst hk
      simp [lookupSig]
    · have hstep : lookupSig ((k0, v0) :: tl) k = lookupSig tl k := by
        simp [lookupSig, hk]
      rw [hstep, ih]
      simp only [sigKeys, List.map_cons, List.mem_cons]
      constructor
      · intro hnm hmem
        rcases hmem with hmem | hmem
        · exact hk hmem.symm
        · exact hnm hmem
      · intro hnm hmem
        exact hnm (Or.inr hmem)

theorem sigKeys_filter_sublist (l : List (String × ℚ)) (p : String × ℚ → Bool) :
    (sigKeys (l.filter p)).Sublist (sigKeys l) :=
  (List.filter_sublist l).map Prod.fst

theorem lookupSig_filter (l : List (String × ℚ)) (k : String) (p : String × ℚ → Bool)
    (h : (sigKeys l).Nodup) :
    lookupSig (l.filter p) k =
      (lookupSig l k).bind (fun v => if p (k, v) then some v else none) := by
  induction l with
  | nil => rfl
  | cons hd tl ih =>
    obtain ⟨k0, v0⟩ := hd
    rw [sigKeys, List.map_cons, List.nodup_cons] at h
    by_cases hp : p (k0, v0) = true
    · by_cases hk : k0 = k
      · subst hk
        simp [List.filter_cons, hp, lookupSig]
      · simp only [List.filter_cons, hp, if_true, lookupSig, if_neg hk]
        exact ih h.2
    · by_cases hk : k0 = k
      · subst hk
        have hnone : lookupSig (tl.filter p) k0 = none := by
          rw [lookupSig_eq_none_iff]
          intro hmem
          exact h.1 (List.Sublist.mem hmem (sigKeys_filter_sublist tl p))
        simp [List.filter_cons, hp, lookupSig, hnone]
      · simp only [List.filter_cons, hp, if_false, Bool.false_eq_true, lookupSig, if_neg hk]
        exact ih h.2

theorem lookupSig_append_right (l : List (String × ℚ)) (k : String) (v : ℚ)
    (h : lookupSig l k = none) : lookupSig (l ++ [(k, v)]) k = some v := by
  induction l with
  | nil => simp [lookupSig]
  | cons hd tl ih =>
    obtain ⟨k0, v0⟩ := hd
    rw [List.cons_append]
    by_cases hk : k0 = k
    · simp [lookupSig, hk] at h
    · simp only [lookupSig, if_neg hk] at h ⊢
      exact ih h

theorem lookupSig_pruneSig (g : SignalGuard) (k : String) (now : ℚ)
    (h : (sigKeys g.signals).Nodup) :
    lookupSig (pruneSig now g.ttl_sec g.signals) k =
      (lookupSig g.signals k).bind
        (fun v => if now - v ≤ g.ttl_sec then some v else none) := by
  rw [pruneSig, lookupSig_filter _ _ _ h]
  rcases lookupSig g.signals k with _ | v
  · rfl
  · simp only [Option.some_bind, decide_eq_true_eq]

theorem register_fst_true_iff (g : SignalGuard) (id : String) (now : ℚ)
    (h : (sigKeys g.signals).Nodup) :
    (register g id now).1 = true ↔
      (lookupSig g.signals id = none ∨
        ∃ ts, lookupSig g.signals id = some ts ∧ now - ts > g.ttl_sec) := by
  have hp := lookupSig_pruneSig g id now h
  rcases hl : lookupSig g.signals id with _ | ts
  · rw [hl] at hp
    simp only [Option.none_bind] at hp
    simp [register, hp]
  · rw [hl] at hp
    simp only [Option.some_bind] at hp
    by_cases hts : now - ts ≤ g.ttl_sec
    · rw [if_pos hts] at hp
      simp only [register, hp]
      constructor
      · intro hcontr
        simp at hcontr
      · rintro (hnone | ⟨ts2, hts2, hgt⟩)
        · simp at hnone
        · injection hts2 with hts2
          subst hts2
          exact absurd hgt (not_lt.mpr hts)
    · rw [if_neg hts] at hp
      simp only [register, hp]
      constructor
      · intro _
        exact Or.inr ⟨ts, rfl, lt_of_not_le hts⟩
      · intro _
        trivial

theorem register_nodup (g : SignalGuard) (id : String) (now : ℚ)
    (h : (sigKeys g.signals).Nodup) :
    (sigKeys (register g id now).2.signals).Nodup := by
  have hpr : (sigKeys (pruneSig now g.ttl_sec g.signals)).Nodup :=
    List.Nodup.sublist (sigKeys_filter_sublist g.signals _) h
  rcases hl : lookupSig (pruneSig now g.ttl_sec g.signals) id with _ | ts
  · have hgoal : (register g id now).2.signals =
        pruneSig now g.ttl_sec g.signals ++ [(id, now)] := by
      simp [register, hl]
    rw [hgoal]
    simp only [sigKeys, List.map_append, List.map_cons, List.map_nil]
    rw [List.nodup_append]
    refine ⟨hpr, List.nodup_singleton id, ?_⟩
    intro a ha hb
    rw [List.mem_singleton] at hb
    subst hb
    exact (lookupSig_eq_none_iff _ _).mp hl ha
  · have hgoal : (register g id now).2.signals = pruneSig now g.ttl_sec g.signals := by
      simp [register, hl]
    rw [hgoal]
    exact hpr

/-! ## Watcher tolerance helper lemmas -/

theorem mathIsClose_self (a rel tol : ℚ) (h : 0 ≤ tol) :
    mathIsClose a a rel tol = true := by
  simp only [mathIsClose, decide_eq_true_eq, sub_self, abs_zero]
  exact le_trans h (le_max_right _ _)

theorem closeTriggered_eq_or (e tp sl p : ℚ) :
    closeTriggered e tp sl p = (tpHit e tp p || slHit e sl p) := by
  by_cases h1 : tpHit e tp p = true <;> by_cases h2 : slHit e sl p = true <;>
    simp [closeTriggered, triggerReason, h1, h2]

theorem tpHit_iff (e tp p : ℚ) :
    tpHit e tp p = true ↔
      (e * (1 + tp) ≤ p ∨ mathIsClose p (e * (1 + tp)) watchTol watchTol = true) := by
  simp only [tpHit, Bool.or_eq_true, decide_eq_true_eq]
  constructor
  · rintro (h | h)
    · exact Or.inl (le_of_lt h)
    · exact Or.inr h
  · rintro (h | h)
    · rcases lt_or_eq_of_le h with h | h
      · exact Or.inl h
      · exact Or.inr (by rw [← h]; exact mathIsClose_self _ watchTol watchTol (by norm_num [watchTol]))
    · exact Or.inr h

theorem slHit_iff (e sl p : ℚ) :
    slHit e sl p = true ↔
      (p ≤ e * (1 - sl) ∨ mathIsClose p (e * (1 - sl)) watchTol watchTol = true) := by
  simp only [slHit, Bool.or_eq_true, decide_eq_true_eq]
  constructor
  · rintro (h | h)
    · exact Or.inl (le_of_lt h)
    · exact Or.inr h
  · rintro (h | h)
    · rcases lt_or_eq_of_le h with h | h
      · exact Or.inl h
      · exact Or.inr (by rw [h]; exact mathIsClose_self _ watchTol watchTol (by norm_num [watchTol]))
    · exact Or.inr h

/-! ## Claim theorems -/

/-- C3: the derived average fill price follows the stated precedence — a
non-empty trades list gives the volume-weighted average of trade prices;
otherwise a present `avg_price` field is used; otherwise an `ord_type`
"price" order with positive notional price and positive executed volume
gives price over executed volume; otherwise the quoted `price` field when
present, else 0. -/
theorem c3_avg_price_precedence :
    (∀ o : Order, o.trades ≠ [] →
      calculate_avg_price o =
        (o.trades.map (fun t => t.price * t.volume)).sum / (o.trades.map Trade.volume).sum) ∧
    (∀ (o : Order) (a : ℚ), o.trades = [] → o.avg_price = some a →
      calculate_avg_price o = a) ∧
    (∀ o : Order, o.trades = [] → o.avg_price = none → o.ord_type = some "price" →
      0 < o.price.getD 0 → 0 < extract_filled_volume o →
      calculate_avg_price o = o.price.getD 0 / extract_filled_volume o) ∧
    (∀ (o : Order) (p : ℚ), o.trades = [] → o.avg_price = none →
      ¬(o.ord_type = some "price" ∧ extract_filled_volume o > 0 ∧ o.price.getD 0 > 0) →
      o.price = some p → calculate_avg_price o = p) ∧
    (∀ o : Order, o.trades = [] → o.avg_price = none →
      ¬(o.ord_type = some "price" ∧ extract_filled_volume o > 0 ∧ o.price.getD 0 > 0) →
      o.price = none → calculate_avg_price o = 0) := by
  refine ⟨?_, ?_, ?_, ?_, ?_⟩
  · intro o h
    rw [calculate_avg_price, if_pos h]
    by_cases hv : (o.trades.map Trade.volume).sum ≠ 0
    · rw [if_pos hv]
    · rw [if_neg hv]
      push_neg at hv
      rw [hv, div_zero]
  · intro o a h1 h2
    rw [calculate_avg_price, if_neg (by simp [h1]), h2]
  · intro o h1 h2 h3 h4 h5
    rw [calculate_avg_price, if_neg (by simp [h1]), h2]
    exact if_pos ⟨h3, h5, h4⟩
  · intro o p h1 h2 h3 h4
    rw [calculate_avg_price, if_neg (by simp [h1]), h2, if_neg h3, h4]
  · intro o h1 h2 h3 h4
    rw [calculate_avg_price, if_neg (by simp [h1]), h2, if_neg h3, h4]

/-- C3 witness: the three concrete spec examples, through the theorem. -/
theorem c3_witness :
    calculate_avg_price fixOrder1 = 150 ∧
    calculate_avg_price { avg_price := some 120 } = 120 ∧
    calculate_avg_price fixOrder3 = 200 := by
  refine ⟨?_, ?_, ?_⟩
  · have h := c3_avg_price_precedence.1 fixOrder1 (by simp [fixOrder1])
    rw [h]
    norm_num [fixOrder1]
  · exact c3_avg_price_precedence.2.1 { avg_price := some 120 } 120 rfl rfl
  · have h := c3_avg_price_precedence.2.2.1 fixOrder3 rfl rfl rfl
      (by norm_num [fixOrder3, Option.getD])
      (by norm_num [fixOrder3, extract_filled_volume])
    rw [h]
    norm_num [fixOrder3, extract_filled_volume, Option.getD]

/-- C4: a watcher iteration triggers a close iff the price is at or above the
TP threshold up to the 1e-6 relative+absolute tolerance, or at or below the
SL threshold under the same tolerance; with entry 100 and tp 0.1 a tick at
109.9999999 triggers the close and a tick at 109.9 does not. -/
theorem c4_trigger_tolerance :
    (∀ entry_price tp sl price : ℚ,
      closeTriggered entry_price tp sl price = true ↔
        ((entry_price * (1 + tp) ≤ price ∨
            mathIsClose price (entry_price * (1 + tp)) watchTol watchTol = true) ∨
          (price ≤ entry_price * (1 - sl) ∨
            mathIsClose price (entry_price * (1 - sl)) watchTol watchTol = true))) ∧
    closeTriggered 100 (1/10) (1/20) (1099999999/10000000) = true ∧
    closeTriggered 100 (1/10) (1/20) (1099/10) = false := by
  refine ⟨?_, ?_, ?_⟩
  · intro e tp sl p
    rw [closeTriggered_eq_or, Bool.or_eq_true, tpHit_iff, slHit_iff]
  · norm_num [closeTriggered, triggerReason, tpHit, slHit, mathIsClose, watchTol, abs, max_def]
  · norm_num [closeTriggered, triggerReason, tpHit, slHit, mathIsClose, watchTol, abs]

/-- C5: opening over a stored OPEN position fails with the already-open error
and leaves the stored position unchanged; with no stored position or a
CLOSED one, the new position is installed. -/
theorem c5_open_position_contract (st : PMState) (p : Position) :
    (has_open st = true → open_position st p = (.alreadyOpen, st)) ∧
    (has_open st = false → open_position st p = (.installed, some p)) := by
  cases st with
  | none =>
    constructor
    · intro h
      simp [has_open] at h
    · intro _
      rfl
  | some q =>
    cases hq : q.status with
    | OPEN =>
      constructor
      · intro _
        simp [open_position, hq]
      · intro h
        simp [has_open, hq] at h
    | CLOSED =>
      constructor
      · intro h
        simp [has_open, hq] at h
      · intro _
        simp [open_position, hq]

/-- C5 witness: concrete applications on an OPEN, an absent, and a CLOSED
stored position. -/
theorem c5_witness :
    open_position (some fixOpenPos) fixPos = (.alreadyOpen, some fixOpenPos) ∧
    open_position none fixPos = (.installed, some fixPos) ∧
    open_position (some { fixOpenPos with status := .CLOSED }) fixPos =
      (.installed, some fixPos) :=
  ⟨(c5_open_position_contract _ _).1 rfl,
   (c5_open_position_contract _ _).2 rfl,
   (c5_open_position_contract _ _).2 rfl⟩

/-- C6: register returns true and records the id at the current time iff the
id has no stored record or its stored record has expired; every call first
prunes all records older than the TTL (so every surviving record other than
the fresh one is within the TTL). -/
theorem c6_register_contract (g : SignalGuard) (id : String) (now : ℚ)
    (h : (sigKeys g.signals).Nodup) :
    ((register g id now).1 = true ↔
      (lookupSig g.signals id = none ∨
        ∃ ts, lookupSig g.signals id = some ts ∧ now - ts > g.ttl_sec)) ∧
    ((register g id now).1 = true →
      lookupSig (register g id now).2.signals id = some now) ∧
    (∀ k ts, (k, ts) ∈ (register g id now).2.signals →
      now - ts ≤ g.ttl_sec ∨ (k, ts) = (id, now)) := by
  refine ⟨register_fst_true_iff g id now h, ?_, ?_⟩
  · intro htrue
    rcases hl : lookupSig (pruneSig now g.ttl_sec g.signals) id with _ | ts
    · have heq : (register g id now).2.signals =
          pruneSig now g.ttl_sec g.signals ++ [(id, now)] := by
        simp [register, hl]
      rw [heq]
      exact lookupSig_append_right _ _ _ hl
    · exfalso
      have hfalse : (register g id now).1 = false := by simp [register, hl]
      rw [htrue] at hfalse
      cases hfalse
  · intro k ts hmem
    rcases hl : lookupSig (pruneSig now g.ttl_sec g.signals) id with _ | ts2
    · have heq : (register g id now).2.signals =
          pruneSig now g.ttl_sec g.signals ++ [(id, now)] := by
        simp [register, hl]
      rw [heq] at hmem
      rcases List.mem_append.mp hmem with hmem | hmem
      · left
        have hp := List.of_mem_filter hmem
        simpa using hp
      · right
        simpa using hmem
    · have heq : (register g id now).2.signals = pruneSig now g.ttl_sec g.signals := by
        simp [register, hl]
      rw [heq] at hmem
      left
      have hp := List.of_mem_filter hmem
      simpa using hp

/-- C6 witness: an expired record lets the id register again and the new
record carries the call's time. -/
theorem c6_witness :
    (register ⟨300, [("old", 0)]⟩ "new" 400).1 = true ∧
    lookupSig (register ⟨300, [("old", 0)]⟩ "new" 400).2.signals "new" = some 400 := by
  have h := c6_register_contract ⟨300, [("old", 0)]⟩ "new" 400 (by decide)
  exact ⟨h.1.mpr (Or.inl (by decide)), h.2.1 (h.1.mpr (Or.inl (by decide)))⟩

/-- C10: a duplicate register call on an unexpired record returns false and
leaves the stored first-seen timestamp unchanged, and the id becomes
registrable again exactly when its age since first registration exceeds the
TTL. -/
theorem c10_duplicate_register_frame (g : SignalGuard) (id : String) (now ts : ℚ)
    (h : (sigKeys g.signals).Nodup)
    (hs : lookupSig g.signals id = some ts)
    (hfresh : now - ts ≤ g.ttl_sec) :
    (register g id now).1 = false ∧
    lookupSig (register g id now).2.signals id = some ts ∧
    (∀ now2 : ℚ,
      (register (register g id now).2 id now2).1 = true ↔ now2 - ts > g.ttl_sec) := by
  have hp : lookupSig (pruneSig now g.ttl_sec g.signals) id = some ts := by
    rw [lookupSig_pruneSig g id now h, hs, Option.some_bind, if_pos hfresh]
  have hfst : (register g id now).1 = false := by simp [register, hp]
  have hsig : (register g id now).2.signals = pruneSig now g.ttl_sec g.signals := by
    simp [register, hp]
  refine ⟨hfst, by rw [hsig]; exact hp, ?_⟩
  intro now2
  have hnd2 : (sigKeys (register g id now).2.signals).Nodup := register_nodup g id now h
  have httl : (register g id now).2.ttl_sec = g.ttl_sec := by simp [register, hp]
  have hlk : lookupSig (register g id now).2.signals id = some ts := by
    rw [hsig]
    exact hp
  rw [register_fst_true_iff _ id now2 hnd2, hlk, httl]
  constructor
  · rintro (hnone | ⟨ts2, hts2, hgt⟩)
    · cases hnone
    · injection hts2 with hts2
      subst hts2
      exact hgt
  · intro hgt
    exact Or.inr ⟨ts, rfl, hgt⟩

/-- C10 witness: a replay at time 100 of an id first seen at time 5 under TTL
300 is refused and keeps first-seen 5; registering at 400 succeeds. -/
theorem c10_witness :
    (register ⟨300, [("a", 5)]⟩ "a" 100).1 = false ∧
    lookupSig (register ⟨300, [("a", 5)]⟩ "a" 100).2.signals "a" = some 5 ∧
    (register (register ⟨300, [("a", 5)]⟩ "a" 100).2 "a" 400).1 = true := by
  have h := c10_duplicate_register_frame ⟨300, [("a", 5)]⟩ "a" 100 5
    (by decide) (by decide) (by norm_num)
  exact ⟨h.1, h.2.1, (h.2.2 400).mpr (by norm_num)⟩

/-- C8: a watcher iteration on an absent, non-OPEN, or misconfigured (tp or
sl non-positive) position terminates with no exchange call; in particular an
iteration right after an external close stops and makes no exchange call. -/
theorem c8_watcher_early_exit :
    (∀ (env : WatcherEnv) (pos : PMState),
      (pos = none ∨ ∃ p, pos = some p ∧
        (p.status ≠ PositionStatus.OPEN ∨ p.tp ≤ 0 ∨ p.sl ≤ 0)) →
      watcherIter env pos = (.stop, pos, [])) ∧
    (∀ (env : WatcherEnv) (p : Position),
      watcherIter env (close_position (some p)) =
        (.stop, close_position (some p), [])) := by
  constructor
  · intro env pos h
    rcases h with h | ⟨p, hp, hcond⟩
    · subst h
      rfl
    · subst hp
      by_cases hst : p.status = PositionStatus.OPEN
      · rcases hcond with hc | hc
        · exact absurd hst hc
        · simp [watcherIter, hst, hc]
      · simp [watcherIter, hst]
  · intro env p
    simp [watcherIter, close_position]

/-- C8 witness: an iteration on an externally closed position stops without
exchange calls. -/
theorem c8_witness :
    watcherIter fixWatcherEnv (some { fixPos with status := .CLOSED }) =
      (.stop, some { fixPos with status := .CLOSED }, []) :=
  c8_watcher_early_exit.1 fixWatcherEnv _ (Or.inr ⟨_, rfl, Or.inl (by decide)⟩)

/-- C9: when the recovery routine selects a holding for the configured
market, it installs an OPEN LONG position for that market whose amount is
the holding's balance and whose entry price is the holding's average buy
price, or the ticker price when that is missing or non-positive. -/
theorem c9_recovery_entry_price (s : RecoverySettings) (accounts : List Account)
    (ticker now : ℚ) (st : AppState) (m cur : String) (holding : Account)
    (rest : List Account)
    (hskip : s.recovery_skip = false)
    (hm : s.recovery_market = some m)
    (hm0 : ¬(m = ""))
    (hsplit : splitMarket m = some ("KRW", cur))
    (hmatch : (holdingsOf accounts).filter (fun a => a.currency = cur) = holding :: rest) :
    (recoverPosition s accounts ticker now st).2.1.position =
      some { market := m, side := "LONG",
             entry_price :=
               if holding.avg_buy_price.getD 0 ≤ 0 then ticker
               else holding.avg_buy_price.getD 0,
             amount := holding.balance.getD 0,
             tp := s.recovery_tp, sl := s.recovery_sl,
             status := PositionStatus.OPEN, opened_at := now,
             order_uuid := "RECOVERED" } := by
  have hne : ¬(holdingsOf accounts = []) := by
    intro h0
    rw [h0] at hmatch
    simp at hmatch
  rw [recoverPosition]
  rw [if_neg hne, hskip]
  simp only [Bool.false_eq_true, if_false, hm, hsplit, hmatch]
  rw [if_neg hm0, if_neg (by simp)]
  simp [replace_with_recovered, kwargsAccepted, addEventParams]

/-- C9 witness: the spec scenario — 0.5 BTC with zero average buy price,
recovery market KRW-BTC, ticker 50000000 — yields an OPEN position with
entry price 50000000 and amount 0.5. -/
theorem c9_witness :
    (recoverPosition fixRecSettings fixAccounts 50000000 0 fixState0).2.1.position =
      some fixRecPos := by
  have h := c9_recovery_entry_price fixRecSettings fixAccounts 50000000 0 fixState0
    "KRW-BTC" "BTC" ⟨"BTC", some (1/2), some 0⟩ []
    rfl rfl (by decide) (by decide)
    (by norm_num [holdingsOf, fixAccounts, List.filter_cons, Option.getD]; simp)
  rw [h]
  norm_num [fixRecPos, fixRecSettings, Option.getD]

/-- C2 counterexample: a fresh signal id arriving while a position is OPEN is
rejected with 409, yet the SignalGuard's stored records change — the guard
registers the id before the open-position check. -/
theorem c2_counterexample :
    (tradingview_webhook fixSettings fixInput fixEnv 0 fixStateOpen).1 =
      .httpError 409 "Position already open" ∧
    (tradingview_webhook fixSettings fixInput fixEnv 0 fixStateOpen).2.1.guard.signals ≠
      fixStateOpen.guard.signals := by
  have h : tradingview_webhook fixSettings fixInput fixEnv 0 fixStateOpen =
      (.httpError 409 "Position already open",
       ⟨⟨300, [("s1", 0)]⟩, some fixOpenPos, false⟩, []) := by
    norm_num [tradingview_webhook, register, pruneSig, lookupSig, has_open,
      fixSettings, fixInput, fixEnv, fixStateOpen, fixOpenPos]
  rw [h]
  exact ⟨rfl, by simp [fixStateOpen]⟩

/-- C2 amended: a well-formed entry whose signal id registers as new while a
position is OPEN is rejected immediately with 409 PositionAlreadyOpen, with
no exchange call and the stored position unchanged; the SignalGuard state
becomes the registered (pruned plus newly recorded id) state rather than
staying identical. -/
theorem c2_reject_when_open (s : EntrySettings) (inp : WebhookInput) (env : WebhookEnv)
    (now : ℚ) (st : AppState)
    (hpos : ¬(inp.price_krw ≤ 0 ∨ inp.tp ≤ 0 ∨ inp.sl ≤ 0))
    (hmin : ¬(inp.price_krw < s.min_order_krw))
    (hnew : (register st.guard inp.signal_id now).1 = true)
    (hopen : has_open st.position = true) :
    tradingview_webhook s inp env now st =
      (.httpError 409 "Position already open",
       { st with guard := (register st.guard inp.signal_id now).2 }, []) := by
  rw [tradingview_webhook, if_neg hpos, if_neg hmin]
  simp [hnew, hopen]

/-- C2 witness: the amended statement at the concrete open-position state. -/
theorem c2_witness :
    tradingview_webhook fixSettings fixInput fixEnv 0 fixStateOpen =
      (.httpError 409 "Position already open",
       { fixStateOpen with guard := (register fixStateOpen.guard "s1" 0).2 }, []) :=
  c2_reject_when_open fixSettings fixInput fixEnv 0 fixStateOpen
    (by norm_num [fixInput]) (by norm_num [fixInput, fixSettings])
    (by decide) rfl

/-- Case analysis of the fill-resolution tail: either the position is left
unchanged, or the run ended in the success or the uncaught-exception outcome
(the only two outcomes past the install). -/
theorem webhookAfterResolve_position_cases (inp : WebhookInput) (env : WebhookEnv)
    (now : ℚ) (st : AppState) (uuid : String) (filled : Order)
    (calls : List ExchangeCall) :
    (webhookAfterResolve inp env now st uuid filled calls).2.1.position = st.position ∨
    (∃ msg, (webhookAfterResolve inp env now st uuid filled calls).1 = .uncaught msg) ∨
    (∃ p, (webhookAfterResolve inp env now st uuid filled calls).1 = .ok p) := by
  rw [webhookAfterResolve]
  split
  · exact Or.inl rfl
  · split
    · exact Or.inl rfl
    · dsimp only
      split
      · exact Or.inr (Or.inl ⟨_, rfl⟩)
      · split
        · exact Or.inr (Or.inr ⟨_, rfl⟩)
        · exact Or.inr (Or.inl ⟨_, rfl⟩)

/-- Case analysis of the whole entry workflow: either the stored position is
unchanged, or the run ended in the success or the uncaught-exception
outcome. -/
theorem tradingview_webhook_position_cases (s : EntrySettings) (inp : WebhookInput)
    (env : WebhookEnv) (now : ℚ) (st : AppState) :
    (tradingview_webhook s inp env now st).2.1.position = st.position ∨
    (∃ msg, (tradingview_webhook s inp env now st).1 = .uncaught msg) ∨
    (∃ p, (tradingview_webhook s inp env now st).1 = .ok p) := by
  rw [tradingview_webhook]
  dsimp only
  repeat' split
  all_goals try exact Or.inl rfl
  all_goals exact webhookAfterResolve_position_cases inp env now _ _ _ _

/-- C7: whenever the entry workflow terminates with an HTTP error outcome
(duplicate signal, position already open, order placement failure,
unresolved fill, or invalid fill data), the stored position after the
request equals the stored position before it. -/
theorem c7_error_leaves_position (s : EntrySettings) (inp : WebhookInput)
    (env : WebhookEnv) (now : ℚ) (st : AppState) (code : ℕ) (detail : String)
    (h : (tradingview_webhook s inp env now st).1 = .httpError code detail) :
    (tradingview_webhook s inp env now st).2.1.position = st.position := by
  rcases tradingview_webhook_position_cases s inp env now st with hp | ⟨msg, hm⟩ | ⟨p, hpk⟩
  · exact hp
  · rw [h] at hm
    cases hm
  · rw [h] at hpk
    cases hpk

/-- C7 witness: a duplicate-signal rejection leaves the (absent) position
unchanged. -/
theorem c7_witness :
    (tradingview_webhook fixSettings fixInput fixEnv 0 fixDupState).2.1.position = none := by
  have h1 : (tradingview_webhook fixSettings fixInput fixEnv 0 fixDupState).1 =
      .httpError 409 "Duplicate signal_id" := by
    norm_num [tradingview_webhook, register, pruneSig, lookupSig,
      fixSettings, fixInput, fixEnv, fixDupState]
  have h2 := c7_error_leaves_position fixSettings fixInput fixEnv 0 fixDupState
    409 "Duplicate signal_id" h1
  rw [h2]
  rfl

/-- C1: a fully valid entry whose market buy fills cleanly installs the OPEN
position, but the workflow then raises a `TypeError` inside
`telemetry.add_event` (called with the `kind` and `roi` keyword arguments
that `add_event` does not declare), so it neither ensures the PriceWatcher
is running nor returns the success response the spec requires. -/
theorem c1_entry_crashes_after_install :
    tradingview_webhook fixSettings fixInput fixEnv 0 fixState0 =
      (.uncaught "TypeError: add_event got an unexpected keyword argument",
       ⟨⟨300, [("s1", 0)]⟩, some fixPos, false⟩,
       [.placeBuy "KRW-BTC" 10000, .waitOrder "u1"]) ∧
    kwargsAccepted addEventParams ["kind", "roi"] = false := by
  constructor
  · norm_num [tradingview_webhook, register, pruneSig, lookupSig, has_open,
      resolveFilledOrder, webhookAfterResolve, calculate_avg_price,
      extract_filled_volume, open_position, kwargsAccepted, addEventParams,
      apiErrStatus, fixSettings, fixInput, fixEnv, fixState0, fixFilled, fixPos]
    simp
  · rfl

end Meoho
